import Mathlib

/-!
Shallow embedding of the Synthesis.Pro hybrid retrieval engine
(`RAG/core/rag_engine_lite.py`, class `LightweightRAG`) and of the
query-result cache of `KnowledgeBase/Scripts/kb_detective.py`
(class `KnowledgeBaseDetective`), together with theorems settling the
behavioural claims about them.

Modelling conventions:
* SQLite rows of the `documents` table become a `Doc` structure; each
  partition's database file becomes a `Store` (rows in id order, the
  AUTOINCREMENT counter, and an availability flag standing for the backing
  file being reachable, i.e. `sqlite3.connect` succeeding).
* Python floats are modelled as `ℚ`.  The external black boxes (the md5
  hash, the sentence-transformers `model.encode`, the numpy cosine float
  arithmetic, and the `bm25s` retriever) are collected in an `Ext`
  parameter record: the engine's logic only pipes their outputs around.
* Exceptions are modelled with `Except`; Python's mutation of `self` is
  explicit state passing of an `Engine` value.
-/

namespace SynthesisRAG

/-- Embedding vectors (numpy float arrays) are modelled as lists of `ℚ`. -/
abbrev Vec := List ℚ

/-- One row of the `documents` table:
`(id, content, embedding, metadata, doc_hash)`. -/
structure Doc where
  id : Nat
  content : String
  embedding : Option Vec
  metadata : Option String
  docHash : String
deriving DecidableEq

/-- One partition's SQLite database: its rows (kept in ascending id order,
matching `ORDER BY id` and AUTOINCREMENT), the next AUTOINCREMENT id, and
whether the backing file is reachable. -/
structure Store where
  docs : List Doc
  nextId : Nat
  available : Bool
deriving DecidableEq

/-- The data pickled into a partition's `*_bm25.pkl` artifact and kept in
`self.doc_maps`: the `(doc_ids, texts)` snapshot the retriever was built
from (the `bm25s.BM25` object itself is a function of `texts`). -/
structure Snap where
  docIds : List Nat
  texts : List String
deriving DecidableEq

/-- The two partitions (`self.public_database` / `self.private_database`). -/
inductive Part
  | pub
  | priv
deriving DecidableEq

/-- The engine state: the two partition databases, the in-memory BM25
structures (`self.bm25_indexes` / `self.doc_maps`, keyed by database), and
the on-disk pickled artifacts (`cache_file` per database). -/
structure Engine where
  pubStore : Store
  privStore : Store
  memPub : Option Snap
  memPriv : Option Snap
  diskPub : Option Snap
  diskPriv : Option Snap
deriving DecidableEq

/-- External black boxes: md5 (`_get_doc_hash`), `model.encode`, the numpy
cosine-similarity float computation, and the `bm25s` retriever
(`query, corpus texts, k` to a ranked list of `(corpus index, score)`). -/
structure Ext where
  docHash : String → String
  encode : String → Vec
  cosine : Vec → Vec → ℚ
  retrieve : String → List String → Nat → List (Nat × ℚ)

def Engine.store (eng : Engine) : Part → Store
  | .pub => eng.pubStore
  | .priv => eng.privStore

def Engine.mem (eng : Engine) : Part → Option Snap
  | .pub => eng.memPub
  | .priv => eng.memPriv

def Engine.disk (eng : Engine) : Part → Option Snap
  | .pub => eng.diskPub
  | .priv => eng.diskPriv

def Engine.setStore (eng : Engine) (p : Part) (s : Store) : Engine :=
  match p with
  | .pub => { eng with pubStore := s }
  | .priv => { eng with privStore := s }

def Engine.setMem (eng : Engine) (p : Part) (o : Option Snap) : Engine :=
  match p with
  | .pub => { eng with memPub := o }
  | .priv => { eng with memPriv := o }

def Engine.setDisk (eng : Engine) (p : Part) (o : Option Snap) : Engine :=
  match p with
  | .pub => { eng with diskPub := o }
  | .priv => { eng with diskPriv := o }

@[simp] theorem store_setStore (eng : Engine) (p : Part) (s : Store) :
    (eng.setStore p s).store p = s := by
  cases p <;> rfl

@[simp] theorem store_setMem (eng : Engine) (p q : Part) (o : Option Snap) :
    (eng.setMem p o).store q = eng.store q := by
  cases p <;> cases q <;> rfl

@[simp] theorem mem_setMem (eng : Engine) (p : Part) (o : Option Snap) :
    (eng.setMem p o).mem p = o := by
  cases p <;> rfl

@[simp] theorem mem_setStore (eng : Engine) (p q : Part) (s : Store) :
    (eng.setStore p s).mem q = eng.mem q := by
  cases p <;> cases q <;> rfl

@[simp] theorem disk_setStore (eng : Engine) (p q : Part) (s : Store) :
    (eng.setStore p s).disk q = eng.disk q := by
  cases p <;> cases q <;> rfl

@[simp] theorem disk_setMem (eng : Engine) (p q : Part) (o : Option Snap) :
    (eng.setMem p o).disk q = eng.disk q := by
  cases p <;> cases q <;> rfl

/-- The partition `add_text` writes to: `private=True` selects the private
database (the default-for-safety), otherwise the public one. -/
def targetPart (priv : Bool) : Part :=
  if priv then Part.priv else Part.pub

/-- Model of `add_text(text, private, metadata)`.  Computes the content hash and the
embedding, then inside the `try` block runs
`INSERT OR IGNORE INTO documents ...` (a row whose `doc_hash` already
exists is ignored, `rows_affected = 0`), commits, deletes the in-memory
BM25 entry for that database (`del self.bm25_indexes[database]`; the
on-disk `cache_file` is not touched), and returns `rows_affected > 0`.
If the database is unreachable the exception is caught and `False` is
returned with nothing mutated. -/
def add_text (E : Ext) (eng : Engine) (text : String) (priv : Bool)
    (metadata : Option String) : Bool × Engine :=
  let p := targetPart priv
  let h := E.docHash text
  let embedding := E.encode text
  if (eng.store p).available then
    let st := eng.store p
    let isDup := st.docs.any (fun d => d.docHash = h)
    let st₁ :=
      if isDup then st
      else ⟨st.docs ++ [⟨st.nextId, text, some embedding, metadata, h⟩],
            st.nextId + 1, st.available⟩
    (!isDup, (eng.setStore p st₁).setMem p none)
  else
    (false, eng)

/-- One search result dict `{id, text, score}`. -/
structure R where
  id : Nat
  text : String
  score : ℚ
deriving DecidableEq

/-- Boolean comparison "a sorts no later than b" for a descending sort by
a rational key. -/
def descBool {α : Type} (score : α → ℚ) : α → α → Bool :=
  fun a b => decide (score b ≤ score a)

/-- Python's `list.sort(key=..., reverse=True)`: a stable sort putting
higher keys first (CPython's sort is stable, and `reverse=True` preserves
the original order of elements with equal keys). -/
def sortByScoreDesc {α : Type} (score : α → ℚ) (l : List α) : List α :=
  l.mergeSort (descBool score)

/-- Model of `_build_bm25_index(db_path)`.  If the pickled `cache_file` exists it is
loaded and returned as-is (no staleness check).  Otherwise the rows are
read with `SELECT id, content FROM documents ORDER BY id`; an empty table
yields `(None, [], [])`; else the snapshot is built, pickled to the
`cache_file`, and returned.  A missing/locked database file makes
`sqlite3.connect` raise (there is no `try` around it here). -/
def build_bm25_index (eng : Engine) (p : Part) :
    Except String (Option Snap × Engine) :=
  match eng.disk p with
  | some snap => .ok (some snap, eng)
  | none =>
    if (eng.store p).available then
      let rows := (eng.store p).docs
      if rows.isEmpty then .ok (none, eng)
      else
        let snap : Snap := ⟨rows.map Doc.id, rows.map Doc.content⟩
        .ok (some snap, eng.setDisk p (some snap))
    else .error "unable to open database file"

/-- Formatting of `retriever.retrieve(query_tokens, k=min(top_k, len(texts)))`
results: each hit is an index into the snapshot, mapped through
`doc_ids[doc_idx]` / `texts[doc_idx]`.  The retriever only ever produces
valid indices, which the model records with a filter. -/
def retrieveResults (E : Ext) (query : String) (snap : Snap) (topK : Nat) :
    List R :=
  let hits := (E.retrieve query snap.texts (min topK snap.texts.length)).filter
    (fun h => h.1 < snap.texts.length)
  hits.map (fun h => ⟨snap.docIds.getD h.1 0, snap.texts.getD h.1 "", h.2⟩)

/-- Model of `_search_bm25(query, db_path, top_k)`.  Uses the memoized in-memory
index when present; otherwise builds/loads one via `_build_bm25_index`,
returning `[]` for an empty corpus (without memoizing) and memoizing the
snapshot otherwise. -/
def search_bm25 (E : Ext) (eng : Engine) (p : Part) (query : String)
    (topK : Nat) : Except String (List R) × Engine :=
  match eng.mem p with
  | some snap => (.ok (retrieveResults E query snap topK), eng)
  | none =>
    match build_bm25_index eng p with
    | .error e => (.error e, eng)
    | .ok (none, eng₁) => (.ok [], eng₁)
    | .ok (some snap, eng₁) =>
      (.ok (retrieveResults E query snap topK), eng₁.setMem p (some snap))

/-- Model of `_search_vector(query, db_path, top_k)`.  Encodes the query, reads
`SELECT id, content, embedding FROM documents WHERE embedding IS NOT NULL`
(raising if the database is unreachable), scores every returned row by
cosine similarity — there is no further filtering of the rows — sorts by
score descending and truncates to `top_k`. -/
def search_vector (E : Ext) (eng : Engine) (p : Part) (query : String)
    (topK : Nat) : Except String (List R) :=
  let queryEmbedding := E.encode query
  if (eng.store p).available then
    let rows := (eng.store p).docs.filter (fun d => d.embedding.isSome)
    if rows.isEmpty then .ok []
    else
      let sims := rows.map
        (fun d => R.mk d.id d.content (E.cosine queryEmbedding (d.embedding.getD [])))
      .ok ((sortByScoreDesc R.score sims).take topK)
  else .error "unable to open database file"

/-- Squared Euclidean norm of a vector; over `ℚ` it vanishes exactly on the
zero vector, so `normSq q * normSq d = 0` expresses that the cosine
denominator `np.linalg.norm(q) * np.linalg.norm(d)` is zero. -/
def normSq (v : Vec) : ℚ :=
  (v.map (fun x => x * x)).sum

/-- One update of the `scores` dict in `_reciprocal_rank_fusion`: insert
the document with score 0 if absent (remembering the text of its first
occurrence, and its dict insertion position), then add the contribution. -/
def bump (scores : List R) (r : R) (contrib : ℚ) : List R :=
  if scores.any (fun e => e.id = r.id) then
    scores.map (fun e => if e.id = r.id then ⟨e.id, e.text, e.score + contrib⟩ else e)
  else scores ++ [⟨r.id, r.text, contrib⟩]

/-- The `for rank, result in enumerate(results, 1)` loop of
`_reciprocal_rank_fusion`, adding `1.0 / (k + rank)` per entry. -/
def addRanked (k : ℚ) : Nat → List R → List R → List R
  | _, scores, [] => scores
  | rank, scores, r :: rs =>
    addRanked k (rank + 1) (bump scores r (1 / (k + (rank : ℚ)))) rs

/-- Model of `_reciprocal_rank_fusion(bm25_results, vector_results, k=60)`:
accumulate the BM25 contributions, then the vector contributions, into the
insertion-ordered `scores` dict, and stably sort its values by combined
score descending. -/
def reciprocal_rank_fusion (k : ℚ) (bm25Results vectorResults : List R) :
    List R :=
  sortByScoreDesc R.score (addRanked k 1 (addRanked k 1 [] bm25Results) vectorResults)

/-- A search result tagged with its source partition
(`result['source'] = source`). -/
structure Tagged where
  id : Nat
  text : String
  score : ℚ
  source : String
deriving DecidableEq

def partLabel : Part → String
  | .pub => "public"
  | .priv => "private"

def tagResults (p : Part) (l : List R) : List Tagged :=
  l.map (fun r => ⟨r.id, r.text, r.score, partLabel p⟩)

/-- The body of `search`'s per-database `try` block: dispatch on
`search_type` ("hybrid" fuses BM25 and vector candidate lists fetched with
`top_k * 2`; "bm25" and "vector" run a single pipeline; anything else
raises `ValueError`). -/
def runPipeline (E : Ext) (eng : Engine) (p : Part) (query : String)
    (topK : Nat) (searchType : String) : Except String (List R) × Engine :=
  if searchType = "hybrid" then
    match search_bm25 E eng p query (topK * 2) with
    | (.error e, eng₁) => (.error e, eng₁)
    | (.ok bm25Results, eng₁) =>
      match search_vector E eng₁ p query (topK * 2) with
      | .error e => (.error e, eng₁)
      | .ok vectorResults =>
        (.ok (reciprocal_rank_fusion 60 bm25Results vectorResults), eng₁)
  else if searchType = "bm25" then
    search_bm25 E eng p query topK
  else if searchType = "vector" then
    (search_vector E eng p query topK, eng)
  else
    (.error "Unknown search_type", eng)

/-- One iteration of `search`'s loop over the selected databases: on an
exception the error is printed and the partition contributes nothing; on
success the first `top_k` results are tagged with the source label and
appended to the accumulator. -/
def searchStep (E : Ext) (query : String) (topK : Nat) (searchType : String)
    (acc : List Tagged × Engine) (p : Part) : List Tagged × Engine :=
  match runPipeline E acc.2 p query topK searchType with
  | (.error _, eng₁) => (acc.1, eng₁)
  | (.ok results, eng₁) => (acc.1 ++ tagResults p (results.take topK), eng₁)

/-- The `databases` list of `search`: public when
`scope in ["public", "both"]`, private when `scope in ["private", "both"]`. -/
def scopeParts (scope : String) : List Part :=
  (if scope = "public" ∨ scope = "both" then [Part.pub] else []) ++
  (if scope = "private" ∨ scope = "both" then [Part.priv] else [])

/-- Model of `search(query, top_k, search_type, scope)`: run the selected pipeline
per database with per-database exception recovery, then sort everything by
score descending and return the first `top_k`. -/
def search (E : Ext) (eng : Engine) (query : String) (topK : Nat)
    (searchType : String) (scope : String) : List Tagged × Engine :=
  let acc := (scopeParts scope).foldl (searchStep E query topK searchType) ([], eng)
  ((sortByScoreDesc Tagged.score acc.1).take topK, acc.2)

namespace KBDetective

/-- One similar-error case produced by the search strategies; only the
`similarity` field drives the engine's own logic (sorting), the rest of
the dict is opaque payload. -/
structure SimCase where
  source : String
  info : String
  similarity : ℚ
deriving DecidableEq

/-- The cache key `(error_type, file_name)`. -/
abbrev CacheKey := String × String

/-- The fields of the error dict that `search_similar_errors` reads
(each via `error.get(...)`, hence optional). -/
structure ErrorDict where
  etype : Option String
  filePath : Option String
  method : Option String
  message : Option String
deriving DecidableEq

/-- Model of `Path(file_path).name`: the final path component. -/
def baseName (path : String) : String :=
  (path.splitOn "/").getLastD ""

/-- Key derivation: `error.get('type', 'Unknown')` and
`Path(file_path).name if file_path else ''`. -/
def cacheKey (err : ErrorDict) : CacheKey :=
  let errorType := err.etype.getD "Unknown"
  let filePath := err.filePath.getD ""
  (errorType, if filePath = "" then "" else baseName filePath)

/-- Model of `self._search_cache`: a Python dict in insertion order, mapping a key
to `(results, insertion timestamp)`.  Overwriting an existing key keeps
its position, a new key is appended at the end. -/
abbrev Cache := List (CacheKey × List SimCase × Nat)

/-- Value of `self._cache_max_size`, 100 entries. -/
def cacheMaxSize : Nat := 100

/-- Value of `self._cache_ttl`, 300 seconds. -/
def cacheTTL : Nat := 300

def cacheLookup (c : Cache) (k : CacheKey) : Option (List SimCase × Nat) :=
  (c.find? (fun e => e.1 = k)).map (fun e => e.2)

/-- Store of `self._search_cache[k] = v` with Python dict semantics. -/
def cacheInsert (c : Cache) (k : CacheKey) (v : List SimCase × Nat) : Cache :=
  if c.any (fun e => e.1 = k) then
    c.map (fun e => if e.1 = k then (k, v) else e)
  else c ++ [(k, v)]

def cacheKeys (c : Cache) : List CacheKey :=
  c.map Prod.fst

/-- The detective's mutable state: the result cache and whether
`Path(self.db_path).exists()`. -/
structure KBState where
  cache : Cache
  dbExists : Bool
deriving DecidableEq

/-- Model of `search_similar_errors(error)` at clock value `now`.  The three SQL
search strategies are the abstract `pipe` parameter (they only touch the
database, not the cache).  Returns the result list, the new state, and
whether the database pipeline was entered.

Control flow from the source: return `[]` if the database file does not
exist; derive the cache key; on a cache hit younger than the TTL return
the cached list unchanged; otherwise run the pipeline inside `try`
(returning `[]` on an exception, with the cache untouched), sort the
collected cases by similarity descending, keep the top 5, evict the
oldest cache entry if the cache is at capacity, store the result under
the key with the current time, and return it. -/
def search_similar_errors (pipe : ErrorDict → Except String (List SimCase))
    (st : KBState) (err : ErrorDict) (now : Nat) :
    List SimCase × KBState × Bool :=
  if st.dbExists then
    let key := cacheKey err
    let hit :=
      match cacheLookup st.cache key with
      | some (cachedResult, timestamp) =>
        if now - timestamp < cacheTTL then some cachedResult else none
      | none => none
    match hit with
    | some cachedResult => (cachedResult, st, false)
    | none =>
      match pipe err with
      | .error _ => ([], st, true)
      | .ok similarErrors =>
        let results := (SynthesisRAG.sortByScoreDesc SimCase.similarity similarErrors).take 5
        let cache₁ :=
          if cacheMaxSize ≤ st.cache.length then st.cache.drop 1 else st.cache
        (results, ⟨cacheInsert cache₁ key (results, now), st.dbExists⟩, true)
  else ([], st, false)

end KBDetective

/-- Total fused score that a result list assigns to document id `d`: the
sum of the scores of the entries carrying that id (an absent document
scores 0).  Invariant under permutation of the list. -/
def fusedScore (l : List R) (d : Nat) : ℚ :=
  ((l.filter (fun e => e.id = d)).map R.score).sum

/-- RRF contribution of one ranked list to document `d`, starting the rank
count at `rank`: `1 / (k + (rank + i))` where `i` is the position of the
first entry with id `d`, and `0` if `d` does not occur. -/
def rrfTermFrom (k : ℚ) (rank : Nat) (l : List R) (d : Nat) : ℚ :=
  match l.findIdx? (fun e => e.id = d) with
  | some i => 1 / (k + ((rank + i : Nat) : ℚ))
  | none => 0

/-- RRF contribution of a ranked list to document `d` with 1-indexed
ranks, as in the spec formula `1 / (k + r)`. -/
def rrfTerm (k : ℚ) (l : List R) (d : Nat) : ℚ :=
  rrfTermFrom k 1 l d

/-- The ordering property claimed for fusion output: any two entries with
equal fused score appear in ascending document-id order. -/
def tieAscendingById (l : List R) : Prop :=
  l.Pairwise (fun a b => a.score = b.score → a.id ≤ b.id)

/-- Drop the partition tag from a tagged result. -/
def stripTag (t : Tagged) : R :=
  ⟨t.id, t.text, t.score⟩

/-- The result list a partition contributes to `search`: the pipeline's
list on success, nothing when its exception was swallowed. -/
def okD (x : Except String (List R)) : List R :=
  match x with
  | .ok l => l
  | .error _ => []

/-- The exclusion property claimed for the dense search: no document whose
stored embedding is the zero vector ever contributes a result. -/
def searchVectorExcludesZero : Prop :=
  ∀ (E : Ext) (eng : Engine) (p : Part) (q : String) (tk : Nat)
    (l : List R) (d : Doc) (v : Vec),
    search_vector E eng p q tk = .ok l →
    d ∈ (eng.store p).docs → d.embedding = some v → normSq v = 0 →
    ∀ r ∈ l, r.id ≠ d.id

/-- Concrete black boxes for the C1 scenario: identity hash, constant
embedding, and a retriever that ranks every indexed document. -/
def c1Ext : Ext :=
  { docHash := fun s => s
    encode := fun _ => [1]
    cosine := fun _ _ => 0
    retrieve := fun _ texts k => (List.range (min k texts.length)).map (fun i => (i, (1 : ℚ))) }

/-- The stale BM25 artifact of the C1 scenario: built when the private
corpus held only document 1. -/
def c1Snap : Snap :=
  ⟨[1], ["alpha"]⟩

/-- C1 scenario start state: the private partition holds document 1
("alpha") and its BM25 index is both memoized and pickled on disk. -/
def c1Eng : Engine :=
  { pubStore := ⟨[], 1, true⟩
    privStore := ⟨[⟨1, "alpha", some [1], none, "alpha"⟩], 2, true⟩
    memPub := none
    memPriv := some c1Snap
    diskPub := none
    diskPriv := some c1Snap }

/-- Concrete black boxes for the C4 counterexample. -/
def c4Ext : Ext :=
  { docHash := fun s => s
    encode := fun _ => [1, 0]
    cosine := fun _ _ => 0
    retrieve := fun _ _ _ => [] }

/-- A stored document whose embedding is the zero vector (non-NULL). -/
def c4Doc : Doc :=
  ⟨1, "zeroed", some [0, 0], none, "zeroed"⟩

/-- C4 counterexample state: the private partition holds only `c4Doc`. -/
def c4Eng : Engine :=
  { pubStore := ⟨[], 1, true⟩
    privStore := ⟨[c4Doc], 2, true⟩
    memPub := none
    memPriv := none
    diskPub := none
    diskPriv := none }

/-- Concrete black boxes for the C7 same-id scenario: every document is
scored 1 by the cosine routine. -/
def c7Ext : Ext :=
  { docHash := fun s => s
    encode := fun _ => [1]
    cosine := fun _ _ => 1
    retrieve := fun _ _ _ => [] }

/-- C7 scenario state: the public and the private partition each hold a
document with numeric id 1. -/
def c7Eng : Engine :=
  { pubStore := ⟨[⟨1, "pub one", some [1], none, "pub one"⟩], 2, true⟩
    privStore := ⟨[⟨1, "priv one", some [1], none, "priv one"⟩], 2, true⟩
    memPub := none
    memPriv := none
    diskPub := none
    diskPriv := none }

/-! Helper lemmas about the stable descending sort. -/

theorem descBool_trans {α : Type} (score : α → ℚ) :
    ∀ (a b c : α), descBool score a b → descBool score b c → descBool score a c := by
  intro a b c hab hbc
  simp only [descBool, decide_eq_true_eq] at hab hbc ⊢
  exact le_trans hbc hab

theorem descBool_total {α : Type} (score : α → ℚ) :
    ∀ (a b : α), descBool score a b || descBool score b a := by
  intro a b
  simp only [descBool, Bool.or_eq_true, decide_eq_true_eq]
  exact le_total (score b) (score a)

theorem sortByScoreDesc_perm {α : Type} (score : α → ℚ) (l : List α) :
    List.Perm (sortByScoreDesc score l) l :=
  List.mergeSort_perm l _

theorem sorted_sortByScoreDesc {α : Type} (score : α → ℚ) (l : List α) :
    (sortByScoreDesc score l).Pairwise (fun a b => score b ≤ score a) := by
  have h := List.sorted_mergeSort (descBool_trans score) (descBool_total score) l
  refine h.imp ?_
  intro a b hab
  simpa [descBool] using hab

theorem mem_sortByScoreDesc {α : Type} (score : α → ℚ) (l : List α) (a : α) :
    a ∈ sortByScoreDesc score l ↔ a ∈ l :=
  List.mem_mergeSort

theorem pair_sublist_sortByScoreDesc {α : Type} (score : α → ℚ) {l : List α}
    {a b : α} (hle : score b ≤ score a) (hsub : List.Sublist [a, b] l) :
    List.Sublist [a, b] (sortByScoreDesc score l) :=
  List.pair_sublist_mergeSort (descBool_trans score) (descBool_total score)
    (by simpa [descBool] using hle) hsub

/-- C2: adding the same text twice to the same partition stores exactly one
document — the first call returns `True` and grows the partition by one
row, the second is a no-op returning `False` (not an error). -/
theorem add_text_dedup_idempotent (E : Ext) (eng : Engine) (text : String)
    (priv : Bool) (m : Option String)
    (hav : (eng.store (targetPart priv)).available = true)
    (hfresh : ∀ d ∈ (eng.store (targetPart priv)).docs, d.docHash ≠ E.docHash text) :
    (add_text E eng text priv m).1 = true ∧
    (add_text E (add_text E eng text priv m).2 text priv m).1 = false ∧
    ((add_text E (add_text E eng text priv m).2 text priv m).2.store
        (targetPart priv)).docs.length
      = ((eng.store (targetPart priv)).docs).length + 1 := by
  have hdup : ((eng.store (targetPart priv)).docs.any
      (fun d => d.docHash = E.docHash text)) = false := by
    rw [List.any_eq_false]
    intro d hd
    simpa using hfresh d hd
  have hfst : add_text E eng text priv m =
      (true, (eng.setStore (targetPart priv)
        ⟨(eng.store (targetPart priv)).docs ++
          [⟨(eng.store (targetPart priv)).nextId, text, some (E.encode text), m,
            E.docHash text⟩],
          (eng.store (targetPart priv)).nextId + 1,
          (eng.store (targetPart priv)).available⟩).setMem (targetPart priv) none) := by
    simp only [add_text, hav, if_true, hdup, Bool.false_eq_true, if_false, Bool.not_false]
  rw [hfst]
  have hdup₂ : (((eng.store (targetPart priv)).docs ++
      [Doc.mk (eng.store (targetPart priv)).nextId text (some (E.encode text)) m
        (E.docHash text)]).any (fun d => d.docHash = E.docHash text)) = true := by
    rw [List.any_eq_true]
    exact ⟨_, List.mem_append_right _ (List.mem_singleton_self _), by simp⟩
  refine ⟨rfl, ?_, ?_⟩
  · simp [add_text, hav, hdup₂]
  · simp [add_text, hav, hdup₂]

/-- Witness for C2 at a concrete engine with an empty available private
partition. -/
theorem add_text_dedup_idempotent_witness :
    ((((⟨⟨[], 1, true⟩, ⟨[], 1, true⟩, none, none, none, none⟩ : Engine).store
        (targetPart true)).available = true) ∧
      (∀ d ∈ ((⟨⟨[], 1, true⟩, ⟨[], 1, true⟩, none, none, none, none⟩ : Engine).store
        (targetPart true)).docs, d.docHash ≠ c1Ext.docHash "note")) ∧
    ((add_text c1Ext ⟨⟨[], 1, true⟩, ⟨[], 1, true⟩, none, none, none, none⟩ "note" true none).1 = true ∧
      (add_text c1Ext (add_text c1Ext ⟨⟨[], 1, true⟩, ⟨[], 1, true⟩, none, none, none, none⟩ "note" true none).2 "note" true none).1 = false ∧
      ((add_text c1Ext (add_text c1Ext ⟨⟨[], 1, true⟩, ⟨[], 1, true⟩, none, none, none, none⟩ "note" true none).2 "note" true none).2.store
          (targetPart true)).docs.length
        = (((⟨⟨[], 1, true⟩, ⟨[], 1, true⟩, none, none, none, none⟩ : Engine).store
            (targetPart true)).docs).length + 1) :=
  ⟨⟨by decide, by decide⟩,
    add_text_dedup_idempotent c1Ext _ "note" true none (by decide) (by decide)⟩

theorem runPipeline_invalid (E : Ext) (eng : Engine) (p : Part) (q : String)
    (tk : Nat) (stype : String) (h₁ : stype ≠ "hybrid") (h₂ : stype ≠ "bm25")
    (h₃ : stype ≠ "vector") :
    runPipeline E eng p q tk stype = (.error "Unknown search_type", eng) := by
  simp [runPipeline, h₁, h₂, h₃]

/-- C10: an unknown `search_type` makes the per-partition `ValueError` be
swallowed by the error handler for every partition, so `search` returns an
empty list (and an unchanged engine) instead of raising. -/
theorem search_invalid_type_empty (E : Ext) (eng : Engine) (q : String)
    (tk : Nat) (stype scope : String) (h₁ : stype ≠ "hybrid")
    (h₂ : stype ≠ "bm25") (h₃ : stype ≠ "vector") :
    search E eng q tk stype scope = ([], eng) := by
  have hstep : searchStep E q tk stype ([], eng) = fun _ => ([], eng) := by
    funext p
    simp [searchStep, runPipeline_invalid E eng p q tk stype h₁ h₂ h₃]
  have hfold : ∀ ps : List Part,
      ps.foldl (searchStep E q tk stype) ([], eng) = ([], eng) := by
    intro ps
    induction ps with
    | nil => rfl
    | cons p ps ih =>
      rw [List.foldl_cons]
      rw [show searchStep E q tk stype ([], eng) p = ([], eng) from congrFun hstep p]
      exact ih
  simp [search, hfold, sortByScoreDesc]

/-- Witness for C10 with a concrete unknown search type. -/
theorem search_invalid_type_empty_witness :
    search c4Ext c4Eng "q" 5 "semantic" "both" = ([], c4Eng) :=
  search_invalid_type_empty c4Ext c4Eng "q" 5 "semantic" "both"
    (by decide) (by decide) (by decide)

theorem runPipeline_pub_unavailable (E : Ext) (eng : Engine) (q : String)
    (tk : Nat) (stype : String) (hav : eng.pubStore.available = false)
    (hmem : eng.memPub = none) (hdisk : eng.diskPub = none) :
    ∃ e, runPipeline E eng Part.pub q tk stype = (.error e, eng) := by
  have hb : ∀ k, search_bm25 E eng Part.pub q k
      = (.error "unable to open database file", eng) := by
    intro k
    simp [search_bm25, Engine.mem, hmem, build_bm25_index, Engine.disk, hdisk,
      Engine.store, hav]
  have hv : ∀ k, search_vector E eng Part.pub q k
      = .error "unable to open database file" := by
    intro k
    simp [search_vector, Engine.store, hav]
  by_cases h1 : stype = "hybrid"
  · exact ⟨"unable to open database file", by simp [runPipeline, h1, hb]⟩
  by_cases h2 : stype = "bm25"
  · exact ⟨"unable to open database file", by simp [runPipeline, h1, h2, hb]⟩
  by_cases h3 : stype = "vector"
  · exact ⟨"unable to open database file", by simp [runPipeline, h1, h2, h3, hv]⟩
  exact ⟨"Unknown search_type", by simp [runPipeline, h1, h2, h3]⟩

/-- C8: failures are contained — `add_text` on an unreachable partition
database returns `False` (mutating nothing) instead of raising, and when
the public partition's pipeline fails (file unreachable, no cached index),
a `scope="both"` search degrades to exactly the result of searching the
remaining private partition. -/
theorem failure_containment :
    (∀ (E : Ext) (eng : Engine) (text : String) (priv : Bool) (m : Option String),
        (eng.store (targetPart priv)).available = false →
        add_text E eng text priv m = (false, eng)) ∧
    (∀ (E : Ext) (eng : Engine) (q : String) (tk : Nat) (stype : String),
        eng.pubStore.available = false → eng.memPub = none → eng.diskPub = none →
        search E eng q tk stype "both" = search E eng q tk stype "private") := by
  constructor
  · intro E eng text priv m hav
    simp [add_text, hav]
  · intro E eng q tk stype hav hmem hdisk
    obtain ⟨e, he⟩ := runPipeline_pub_unavailable E eng q tk stype hav hmem hdisk
    have h1 : scopeParts "both" = [Part.pub, Part.priv] := by simp [scopeParts]
    have h2 : scopeParts "private" = [Part.priv] := by simp [scopeParts]
    simp only [search, h1, h2, List.foldl_cons, List.foldl_nil]
    rw [show searchStep E q tk stype ([], eng) Part.pub = ([], eng) by
      simp [searchStep, he]]

/-- Witness for C8 on a concrete engine whose public database file is
unreachable. -/
theorem failure_containment_witness :
    add_text c1Ext ⟨⟨[], 1, false⟩, ⟨[], 1, true⟩, none, none, none, none⟩
        "t" false none
      = (false, ⟨⟨[], 1, false⟩, ⟨[], 1, true⟩, none, none, none, none⟩) ∧
    search c1Ext ⟨⟨[], 1, false⟩, ⟨[], 1, true⟩, none, none, none, none⟩
        "q" 3 "hybrid" "both"
      = search c1Ext ⟨⟨[], 1, false⟩, ⟨[], 1, true⟩, none, none, none, none⟩
        "q" 3 "hybrid" "private" :=
  ⟨failure_containment.1 c1Ext _ "t" false none (by decide),
    failure_containment.2 c1Ext _ "q" 3 "hybrid" (by decide) (by decide) (by decide)⟩

/-- C1 (code bug): in the scenario where the private partition's BM25
index was built and cached (in memory and as the on-disk pickle),
`add_text` succeeds and stores the new document, but only the in-memory
structure is dropped — the on-disk artifact survives, `_build_bm25_index`
reloads it, and the next `search_type="bm25"` search runs against the
stale snapshot, so the newly added document (id 2, "beta") cannot be
retrieved even by an exact keyword match: the search returns only the
stale document 1. -/
theorem add_text_leaves_stale_disk_artifact :
    (add_text c1Ext c1Eng "beta" true none).1 = true ∧
    ((add_text c1Ext c1Eng "beta" true none).2.store Part.priv).docs.map Doc.content
      = ["alpha", "beta"] ∧
    (add_text c1Ext c1Eng "beta" true none).2.diskPriv = some c1Snap ∧
    (search_bm25 c1Ext (add_text c1Ext c1Eng "beta" true none).2 Part.priv "beta" 5).1
      = Except.ok [R.mk 1 "alpha" 1] := by
  refine ⟨rfl, rfl, rfl, rfl⟩

/-- C4 counterexample: `_search_vector` does not exclude documents whose
embedding is the zero vector — with a single stored document carrying the
zero embedding, the search returns it. -/
theorem search_vector_zero_vector_not_excluded : ¬ searchVectorExcludesZero := by
  intro h
  have hsv : search_vector c4Ext c4Eng Part.priv "q" 5
      = Except.ok [R.mk 1 "zeroed" 0] := by
    rw [show search_vector c4Ext c4Eng Part.priv "q" 5
      = Except.ok ((sortByScoreDesc R.score [R.mk 1 "zeroed" 0]).take 5) from rfl]
    simp [sortByScoreDesc]
  have hzero := h c4Ext c4Eng Part.priv "q" 5 [R.mk 1 "zeroed" 0] c4Doc [0, 0]
    hsv (List.mem_singleton_self _) rfl (by simp [normSq]) (R.mk 1 "zeroed" 0)
    (List.mem_singleton_self _)
  exact hzero rfl

/-- C4 amended: `_search_vector` scores every document whose `embedding`
column is non-NULL — zero vectors included (the cosine denominator for
such a document is zero, see `normSq`): whenever `top_k` is at least the
number of non-NULL-embedding documents, every such document, zero-vector
or not, appears in the returned list with its cosine score. -/
theorem search_vector_scores_all_non_null (E : Ext) (eng : Engine) (p : Part)
    (q : String) (tk : Nat)
    (hav : (eng.store p).available = true)
    (htk : ((eng.store p).docs.filter (fun d => d.embedding.isSome)).length ≤ tk) :
    ∃ l, search_vector E eng p q tk = .ok l ∧
      (∀ r ∈ l, ∃ d ∈ (eng.store p).docs, d.embedding.isSome ∧ d.id = r.id) ∧
      (∀ d ∈ (eng.store p).docs, ∀ v, d.embedding = some v →
        R.mk d.id d.content (E.cosine (E.encode q) v) ∈ l) := by
  by_cases hemp : ((eng.store p).docs.filter (fun d => d.embedding.isSome)).isEmpty
  · refine ⟨[], by simp [search_vector, hav, hemp], by simp, ?_⟩
    intro d hd v hv
    exfalso
    rw [List.isEmpty_iff] at hemp
    have hmem : d ∈ (eng.store p).docs.filter (fun d => d.embedding.isSome) := by
      rw [List.mem_filter]
      exact ⟨hd, by simp [hv]⟩
    rw [hemp] at hmem
    exact absurd hmem (List.not_mem_nil d)
  · refine ⟨sortByScoreDesc R.score
      (((eng.store p).docs.filter (fun d => d.embedding.isSome)).map
        (fun d => R.mk d.id d.content (E.cosine (E.encode q) (d.embedding.getD [])))),
      ?_, ?_, ?_⟩
    · have hlen : (sortByScoreDesc R.score
          (((eng.store p).docs.filter (fun d => d.embedding.isSome)).map
            (fun d => R.mk d.id d.content
              (E.cosine (E.encode q) (d.embedding.getD []))))).length ≤ tk := by
        rw [(sortByScoreDesc_perm _ _).length_eq, List.length_map]
        exact htk
      simp [search_vector, hav, hemp, List.take_of_length_le hlen]
    · intro r hr
      rw [mem_sortByScoreDesc] at hr
      obtain ⟨d, hd, hdr⟩ := List.mem_map.mp hr
      rw [List.mem_filter] at hd
      exact ⟨d, hd.1, by simpa using hd.2, by rw [← hdr]⟩
    · intro d hd v hv
      rw [mem_sortByScoreDesc]
      refine List.mem_map.mpr ⟨d, ?_, ?_⟩
      · rw [List.mem_filter]
        exact ⟨hd, by simp [hv]⟩
      · rw [hv]
        rfl

/-- Witness for C4's amended theorem on the concrete zero-vector state:
the zero-embedding document is returned and its denominator is zero. -/
theorem search_vector_scores_all_non_null_witness :
    ((c4Eng.store Part.priv).available = true ∧
      ((c4Eng.store Part.priv).docs.filter (fun d => d.embedding.isSome)).length ≤ 5) ∧
    (∃ l, search_vector c4Ext c4Eng Part.priv "q" 5 = .ok l ∧
      (∀ r ∈ l, ∃ d ∈ (c4Eng.store Part.priv).docs, d.embedding.isSome ∧ d.id = r.id) ∧
      (∀ d ∈ (c4Eng.store Part.priv).docs, ∀ v, d.embedding = some v →
        R.mk d.id d.content (c4Ext.cosine (c4Ext.encode "q") v) ∈ l)) ∧
    normSq (c4Ext.encode "q") * normSq [0, 0] = 0 :=
  ⟨⟨by decide, by decide⟩,
    search_vector_scores_all_non_null c4Ext c4Eng Part.priv "q" 5 (by decide) (by decide),
    by simp [normSq]⟩

theorem mem_tagResults {p : Part} {l : List R} {t : Tagged}
    (h : t ∈ tagResults p l) : t.source = partLabel p ∧ stripTag t ∈ l := by
  obtain ⟨r, hr, hrt⟩ := List.mem_map.mp h
  subst hrt
  exact ⟨rfl, hr⟩

/-- Unfolding of `search` for `scope="both"`: the per-partition pipelines
run in sequence on the threaded engine state, each contributing its first
`top_k` results tagged with its partition label, and the concatenation is
stably sorted by score descending and truncated to `top_k`. -/
theorem search_both_eq (E : Ext) (eng : Engine) (q : String) (tk : Nat)
    (stype : String) :
    search E eng q tk stype "both"
      = ((sortByScoreDesc Tagged.score
          (tagResults Part.pub ((okD (runPipeline E eng Part.pub q tk stype).1).take tk)
            ++ tagResults Part.priv
              ((okD (runPipeline E (runPipeline E eng Part.pub q tk stype).2
                  Part.priv q tk stype).1).take tk))).take tk,
        (runPipeline E (runPipeline E eng Part.pub q tk stype).2
          Part.priv q tk stype).2) := by
  have hboth : scopeParts "both" = [Part.pub, Part.priv] := by simp [scopeParts]
  rcases hpub : runPipeline E eng Part.pub q tk stype with ⟨res₁, eng₁⟩
  rcases hpriv : runPipeline E eng₁ Part.priv q tk stype with ⟨res₂, eng₂⟩
  cases res₁ with
  | error e₁ =>
    cases res₂ with
    | error e₂ => simp [search, hboth, searchStep, hpub, hpriv, okD, tagResults]
    | ok l₂ => simp [search, hboth, searchStep, hpub, hpriv, okD, tagResults]
  | ok l₁ =>
    cases res₂ with
    | error e₂ => simp [search, hboth, searchStep, hpub, hpriv, okD, tagResults]
    | ok l₂ => simp [search, hboth, searchStep, hpub, hpriv, okD, tagResults]

/-- C7: for `scope="both"`, `search` runs the selected pipeline on the
public and then the private partition, tags each contribution with its
source partition label, concatenates, sorts by score descending, and
truncates to at most `top_k` results; results are never merged by
document id — concretely, a public and a private document both carrying
id 1 both appear. -/
theorem search_both_concat_sort_truncate (E : Ext) (eng : Engine)
    (q : String) (tk : Nat) (stype : String) :
    (search E eng q tk stype "both").1
      = (sortByScoreDesc Tagged.score
          (tagResults Part.pub ((okD (runPipeline E eng Part.pub q tk stype).1).take tk)
            ++ tagResults Part.priv
              ((okD (runPipeline E (runPipeline E eng Part.pub q tk stype).2
                  Part.priv q tk stype).1).take tk))).take tk ∧
    (search E eng q tk stype "both").1.length ≤ tk ∧
    (search E eng q tk stype "both").1.Pairwise (fun a b => b.score ≤ a.score) ∧
    (∀ r ∈ (search E eng q tk stype "both").1,
      (r.source = "public" ∧
        stripTag r ∈ (okD (runPipeline E eng Part.pub q tk stype).1).take tk) ∨
      (r.source = "private" ∧
        stripTag r ∈ (okD (runPipeline E (runPipeline E eng Part.pub q tk stype).2
          Part.priv q tk stype).1).take tk)) ∧
    (search c7Ext c7Eng "q" 2 "vector" "both").1
      = [Tagged.mk 1 "pub one" 1 "public", Tagged.mk 1 "priv one" 1 "private"] := by
  refine ⟨?_, ?_, ?_, ?_, ?_⟩
  · rw [search_both_eq]
  · rw [search_both_eq]
    exact List.length_take_le _ _
  · rw [search_both_eq]
    exact (sorted_sortByScoreDesc Tagged.score _).sublist (List.take_sublist _ _)
  · intro r hr
    rw [search_both_eq] at hr
    have hr₁ := List.mem_of_mem_take hr
    rw [mem_sortByScoreDesc] at hr₁
    rcases List.mem_append.mp hr₁ with hmem | hmem
    · exact Or.inl ⟨(mem_tagResults hmem).1, (mem_tagResults hmem).2⟩
    · exact Or.inr ⟨(mem_tagResults hmem).1, (mem_tagResults hmem).2⟩
  · have hv1 : search_vector c7Ext c7Eng Part.pub "q" 2
        = Except.ok [R.mk 1 "pub one" 1] := by
      rw [show search_vector c7Ext c7Eng Part.pub "q" 2
        = Except.ok ((sortByScoreDesc R.score [R.mk 1 "pub one" 1]).take 2) from rfl]
      simp [sortByScoreDesc]
    have hv2 : ∀ eng₁ : Engine, eng₁.privStore = c7Eng.privStore →
        search_vector c7Ext eng₁ Part.priv "q" 2 = Except.ok [R.mk 1 "priv one" 1] := by
      intro eng₁ hsame
      rw [show search_vector c7Ext eng₁ Part.priv "q" 2
        = (if (eng₁.store Part.priv).available = true then
            (if ((eng₁.store Part.priv).docs.filter
                (fun d => d.embedding.isSome)).isEmpty then Except.ok []
              else Except.ok ((sortByScoreDesc R.score
                (((eng₁.store Part.priv).docs.filter (fun d => d.embedding.isSome)).map
                  (fun d => R.mk d.id d.content
                    (c7Ext.cosine (c7Ext.encode "q") (d.embedding.getD []))))).take 2))
          else Except.error "unable to open database file") from rfl]
      rw [show eng₁.store Part.priv = eng₁.privStore from rfl, hsame]
      rw [show (c7Eng.privStore.docs.filter (fun d => d.embedding.isSome))
        = [Doc.mk 1 "priv one" (some [1]) none "priv one"] from rfl]
      simp [sortByScoreDesc, c7Ext, c7Eng]
    have hrp1 : runPipeline c7Ext c7Eng Part.pub "q" 2 "vector"
        = (Except.ok [R.mk 1 "pub one" 1], c7Eng) := by
      simp [runPipeline, hv1]
    have hrp2 : runPipeline c7Ext c7Eng Part.priv "q" 2 "vector"
        = (Except.ok [R.mk 1 "priv one" 1], c7Eng) := by
      simp [runPipeline, hv2 c7Eng rfl]
    rw [show (search c7Ext c7Eng "q" 2 "vector" "both").1
      = (sortByScoreDesc Tagged.score
          (tagResults Part.pub ((okD (runPipeline c7Ext c7Eng Part.pub "q" 2 "vector").1).take 2)
            ++ tagResults Part.priv
              ((okD (runPipeline c7Ext (runPipeline c7Ext c7Eng Part.pub "q" 2 "vector").2
                  Part.priv "q" 2 "vector").1).take 2))).take 2 from
        congrArg Prod.fst (search_both_eq c7Ext c7Eng "q" 2 "vector")]
    rw [hrp1]
    simp only [hrp2, okD]
    rw [show tagResults Part.pub ([R.mk 1 "pub one" 1].take 2)
        ++ tagResults Part.priv ([R.mk 1 "priv one" 1].take 2)
      = [Tagged.mk 1 "pub one" 1 "public", Tagged.mk 1 "priv one" 1 "private"] from rfl]
    rw [sortByScoreDesc, List.mergeSort_of_sorted (by
      constructor
      · intro b hb
        rw [List.mem_singleton] at hb
        subst hb
        simp [descBool]
      · simp)]
    rfl

/-! Lemmas about the Reciprocal Rank Fusion accumulator. -/

theorem fusedScore_cons (x : R) (xs : List R) (d : Nat) :
    fusedScore (x :: xs) d
      = (if x.id = d then x.score else 0) + fusedScore xs d := by
  by_cases h : x.id = d <;> simp [fusedScore, List.filter_cons, h]

theorem fusedScore_append (l₁ l₂ : List R) (d : Nat) :
    fusedScore (l₁ ++ l₂) d = fusedScore l₁ d + fusedScore l₂ d := by
  simp [fusedScore, List.filter_append]

theorem fusedScore_perm {l₁ l₂ : List R} (h : List.Perm l₁ l₂) (d : Nat) :
    fusedScore l₁ d = fusedScore l₂ d :=
  List.Perm.sum_eq ((h.filter _).map _)

theorem ids_bump_of_mem (scores : List R) (r : R) (c : ℚ)
    (h : scores.any (fun e => e.id = r.id) = true) :
    (bump scores r c).map R.id = scores.map R.id := by
  simp only [bump, h, if_true, List.map_map]
  apply List.map_congr_left
  intro e _
  by_cases h' : e.id = r.id <;> simp [h']

theorem ids_bump_of_not_mem (scores : List R) (r : R) (c : ℚ)
    (h : scores.any (fun e => e.id = r.id) = false) :
    (bump scores r c).map R.id = scores.map R.id ++ [r.id] := by
  simp [bump, h]

theorem mem_ids_bump (scores : List R) (r : R) (c : ℚ) (d : Nat) :
    d ∈ (bump scores r c).map R.id ↔ d ∈ scores.map R.id ∨ d = r.id := by
  cases h : scores.any (fun e => e.id = r.id) with
  | true =>
    rw [ids_bump_of_mem _ _ _ h]
    constructor
    · exact Or.inl
    · rintro (hd | hd)
      · exact hd
      · obtain ⟨e, he, hid⟩ := List.any_eq_true.mp h
        rw [decide_eq_true_eq] at hid
        subst hd
        exact List.mem_map.mpr ⟨e, he, hid⟩
  | false =>
    rw [ids_bump_of_not_mem _ _ _ h]
    simp

theorem nodup_ids_bump (scores : List R) (r : R) (c : ℚ)
    (h : (scores.map R.id).Nodup) : ((bump scores r c).map R.id).Nodup := by
  cases hmem : scores.any (fun e => e.id = r.id) with
  | true => rw [ids_bump_of_mem _ _ _ hmem]; exact h
  | false =>
    rw [ids_bump_of_not_mem _ _ _ hmem]
    refine List.Nodup.append h (List.nodup_singleton _) ?_
    intro x hx hx'
    rw [List.mem_singleton] at hx'
    subst hx'
    obtain ⟨e, he, hid⟩ := List.mem_map.mp hx
    rw [List.any_eq_false] at hmem
    exact absurd (by simpa using hid) (by simpa using hmem e he)

theorem fusedScore_map_update (scores : List R) (r : R) (c : ℚ) (d : Nat)
    (hnd : (scores.map R.id).Nodup) :
    fusedScore (scores.map
        (fun e => if e.id = r.id then ⟨e.id, e.text, e.score + c⟩ else e)) d
      = fusedScore scores d
        + (if d = r.id ∧ scores.any (fun e => e.id = r.id) = true then c else 0) := by
  induction scores with
  | nil => simp [fusedScore]
  | cons e es ih =>
    have hnd' : (es.map R.id).Nodup := by
      rw [List.map_cons, List.nodup_cons] at hnd
      exact hnd.2
    have hhead : e.id ∉ es.map R.id := by
      rw [List.map_cons, List.nodup_cons] at hnd
      exact hnd.1
    by_cases he : e.id = r.id
    · have hmap : es.map
          (fun x => if x.id = r.id then ⟨x.id, x.text, x.score + c⟩ else x) = es := by
        conv_rhs => rw [show es = es.map id from (List.map_id es).symm]
        apply List.map_congr_left
        intro x hx
        have hxne : ¬ x.id = r.id := by
          intro hxr
          exact hhead (by
            rw [← he] at hxr
            exact List.mem_map.mpr ⟨x, hx, hxr⟩)
        simp [hxne]
      rw [List.map_cons, hmap, if_pos he, fusedScore_cons, fusedScore_cons]
      have hany : (e :: es).any (fun x => x.id = r.id) = true := by
        rw [List.any_cons]
        simp [he]
      rw [hany]
      by_cases hd : d = r.id
      · subst hd
        simp only [he, if_pos rfl, and_true, eq_self_iff_true, if_true]
        ring
      · have hed : ¬ e.id = d := by
          intro hh
          exact hd (by rw [← hh, he])
        simp only [hed, if_false, if_neg]
        rw [if_neg (by intro hc; exact hd hc.1)]
        ring
    · rw [List.map_cons, if_neg he, fusedScore_cons, fusedScore_cons, ih hnd']
      have hany : ((e :: es).any (fun x => x.id = r.id))
          = (es.any (fun x => x.id = r.id)) := by
        rw [List.any_cons]
        simp [he]
      rw [hany]
      ring

theorem fusedScore_bump (scores : List R) (r : R) (c : ℚ) (d : Nat)
    (hnd : (scores.map R.id).Nodup) :
    fusedScore (bump scores r c) d
      = fusedScore scores d + (if d = r.id then c else 0) := by
  cases hmem : scores.any (fun e => e.id = r.id) with
  | true =>
    rw [show bump scores r c = scores.map
        (fun e => if e.id = r.id then ⟨e.id, e.text, e.score + c⟩ else e) by
      simp [bump, hmem]]
    rw [fusedScore_map_update scores r c d hnd, hmem]
    simp
  | false =>
    rw [show bump scores r c = scores ++ [⟨r.id, r.text, c⟩] by simp [bump, hmem]]
    rw [fusedScore_append]
    by_cases hd : d = r.id
    · simp [fusedScore, hd]
    · have : ¬ r.id = d := fun h => hd h.symm
      simp [fusedScore, this, hd]

theorem rrfTermFrom_nil (k : ℚ) (rank : Nat) (d : Nat) :
    rrfTermFrom k rank [] d = 0 :=
  rfl

theorem rrfTermFrom_cons (k : ℚ) (rank : Nat) (r : R) (rs : List R) (d : Nat) :
    rrfTermFrom k rank (r :: rs) d
      = if r.id = d then 1 / (k + (rank : ℚ))
        else rrfTermFrom k (rank + 1) rs d := by
  by_cases h : r.id = d
  · simp [rrfTermFrom, List.findIdx?_cons, h]
  · cases hfind : rs.findIdx? (fun e => e.id = d) with
    | none => simp [rrfTermFrom, List.findIdx?_cons, h, hfind]
    | some i =>
      simp [rrfTermFrom, List.findIdx?_cons, h, hfind]
      ring

theorem rrfTermFrom_eq_zero (k : ℚ) (rank : Nat) (rs : List R) (d : Nat)
    (h : d ∉ rs.map R.id) : rrfTermFrom k rank rs d = 0 := by
  have hnone : rs.findIdx? (fun e => e.id = d) = none := by
    rw [List.findIdx?_eq_none_iff]
    intro x hx
    rw [decide_eq_false_iff_not]
    intro hxd
    exact h (List.mem_map.mpr ⟨x, hx, hxd⟩)
  simp [rrfTermFrom, hnone]

theorem nodup_ids_addRanked (k : ℚ) (rs : List R) :
    ∀ (rank : Nat) (scores : List R), (scores.map R.id).Nodup →
      ((addRanked k rank scores rs).map R.id).Nodup := by
  induction rs with
  | nil => intro rank scores h; exact h
  | cons r rs ih =>
    intro rank scores h
    exact ih (rank + 1) _ (nodup_ids_bump scores r _ h)

theorem mem_ids_addRanked (k : ℚ) (rs : List R) :
    ∀ (rank : Nat) (scores : List R) (d : Nat),
      d ∈ (addRanked k rank scores rs).map R.id
        ↔ d ∈ scores.map R.id ∨ d ∈ rs.map R.id := by
  induction rs with
  | nil => intro rank scores d; simp [addRanked]
  | cons r rs ih =>
    intro rank scores d
    rw [show addRanked k rank scores (r :: rs)
      = addRanked k (rank + 1) (bump scores r (1 / (k + (rank : ℚ)))) rs from rfl]
    rw [ih (rank + 1) _ d, mem_ids_bump]
    simp only [List.map_cons, List.mem_cons]
    tauto

theorem fusedScore_addRanked (k : ℚ) (rs : List R) :
    ∀ (rank : Nat) (scores : List R) (d : Nat),
      (scores.map R.id).Nodup → (rs.map R.id).Nodup →
      fusedScore (addRanked k rank scores rs) d
        = fusedScore scores d + rrfTermFrom k rank rs d := by
  induction rs with
  | nil =>
    intro rank scores d h1 h2
    simp [addRanked, rrfTermFrom_nil]
  | cons r rs ih =>
    intro rank scores d h1 h2
    have h2' : (rs.map R.id).Nodup := by
      rw [List.map_cons, List.nodup_cons] at h2
      exact h2.2
    have hrnotin : r.id ∉ rs.map R.id := by
      rw [List.map_cons, List.nodup_cons] at h2
      exact h2.1
    rw [show addRanked k rank scores (r :: rs)
      = addRanked k (rank + 1) (bump scores r (1 / (k + (rank : ℚ)))) rs from rfl]
    rw [ih (rank + 1) _ d (nodup_ids_bump scores r _ h1) h2']
    rw [fusedScore_bump scores r _ d h1, rrfTermFrom_cons]
    by_cases hd : d = r.id
    · rw [if_pos hd, if_pos hd.symm]
      rw [rrfTermFrom_eq_zero k (rank + 1) rs d (by rw [hd]; exact hrnotin)]
      ring
    · rw [if_neg hd, if_neg (fun h => hd h.symm)]
      ring

/-- C3: for ranked input lists (each listing a document at most once), the
fused score `_reciprocal_rank_fusion` assigns with `k = 60` to every
document id equals the sum over the input lists containing it of
`1 / (60 + r)` with `r` its 1-indexed rank there, and the output's ids are
exactly the union of the ids of the two inputs. -/
theorem rrf_score_formula_and_union (bm25Results vectorResults : List R)
    (h₁ : (bm25Results.map R.id).Nodup) (h₂ : (vectorResults.map R.id).Nodup) :
    (∀ d : Nat, fusedScore (reciprocal_rank_fusion 60 bm25Results vectorResults) d
      = rrfTerm 60 bm25Results d + rrfTerm 60 vectorResults d) ∧
    (∀ d : Nat, d ∈ (reciprocal_rank_fusion 60 bm25Results vectorResults).map R.id
      ↔ d ∈ bm25Results.map R.id ∨ d ∈ vectorResults.map R.id) := by
  constructor
  · intro d
    rw [reciprocal_rank_fusion, fusedScore_perm (sortByScoreDesc_perm _ _) d]
    rw [fusedScore_addRanked 60 vectorResults 1 _ d
      (nodup_ids_addRanked 60 bm25Results 1 [] (by simp)) h₂]
    rw [fusedScore_addRanked 60 bm25Results 1 [] d (by simp) h₁]
    rw [show fusedScore [] d = 0 from rfl]
    rw [rrfTerm, rrfTerm]
    ring
  · intro d
    rw [reciprocal_rank_fusion]
    rw [List.Perm.mem_iff ((sortByScoreDesc_perm R.score _).map R.id)]
    rw [mem_ids_addRanked, mem_ids_addRanked]
    simp

/-- Witness for C3 on concrete two-element lists sharing document 7. -/
theorem rrf_score_formula_and_union_witness :
    (([R.mk 7 "x" 3, R.mk 5 "y" 2].map R.id).Nodup ∧
      ([R.mk 3 "z" 9, R.mk 7 "x" 1].map R.id).Nodup) ∧
    fusedScore (reciprocal_rank_fusion 60 [R.mk 7 "x" 3, R.mk 5 "y" 2]
        [R.mk 3 "z" 9, R.mk 7 "x" 1]) 7
      = rrfTerm 60 [R.mk 7 "x" 3, R.mk 5 "y" 2] 7
        + rrfTerm 60 [R.mk 3 "z" 9, R.mk 7 "x" 1] 7 ∧
    (7 ∈ (reciprocal_rank_fusion 60 [R.mk 7 "x" 3, R.mk 5 "y" 2]
        [R.mk 3 "z" 9, R.mk 7 "x" 1]).map R.id
      ↔ 7 ∈ [R.mk 7 "x" 3, R.mk 5 "y" 2].map R.id
        ∨ 7 ∈ [R.mk 3 "z" 9, R.mk 7 "x" 1].map R.id) :=
  ⟨⟨by decide, by decide⟩,
    (rrf_score_formula_and_union [R.mk 7 "x" 3, R.mk 5 "y" 2]
      [R.mk 3 "z" 9, R.mk 7 "x" 1] (by decide) (by decide)).1 7,
    (rrf_score_formula_and_union [R.mk 7 "x" 3, R.mk 5 "y" 2]
      [R.mk 3 "z" 9, R.mk 7 "x" 1] (by decide) (by decide)).2 7⟩

/-- C5 counterexample: with document 5 ranked first in the BM25 list and
document 3 ranked first in the vector list, both receive the same fused
score `1/61`, yet the fusion output lists document 5 before document 3 —
equal-score entries are not ordered by ascending document id. -/
theorem rrf_ties_not_ascending_by_id :
    ¬ tieAscendingById (reciprocal_rank_fusion 60 [R.mk 5 "a" 1] [R.mk 3 "b" 1]) := by
  have hacc : addRanked 60 1 (addRanked 60 1 [] [R.mk 5 "a" 1]) [R.mk 3 "b" 1]
      = [R.mk 5 "a" (1 / (60 + ((1 : Nat) : ℚ))),
          R.mk 3 "b" (1 / (60 + ((1 : Nat) : ℚ)))] := rfl
  have hsorted : ([R.mk 5 "a" (1 / (60 + ((1 : Nat) : ℚ))),
      R.mk 3 "b" (1 / (60 + ((1 : Nat) : ℚ)))]).Pairwise
        (fun a b => descBool R.score a b) := by
    constructor
    · intro b hb
      rw [List.mem_singleton] at hb
      subst hb
      simp [descBool]
    · simp
  have hval : reciprocal_rank_fusion 60 [R.mk 5 "a" 1] [R.mk 3 "b" 1]
      = [R.mk 5 "a" (1 / (60 + ((1 : Nat) : ℚ))),
          R.mk 3 "b" (1 / (60 + ((1 : Nat) : ℚ)))] := by
    rw [reciprocal_rank_fusion, hacc, sortByScoreDesc,
      List.mergeSort_of_sorted hsorted]
  rw [hval]
  intro hpair
  rcases List.pairwise_cons.mp hpair with ⟨hfst, -⟩
  have h53 := hfst (R.mk 3 "b" (1 / (60 + ((1 : Nat) : ℚ))))
    (List.mem_singleton_self _) rfl
  simp at h53

/-- C5 amended: equal-score documents keep their first-appearance order in
the fusion output — the Python `scores` dict is accumulated in insertion
order (BM25 entries first, then vector entries) and the final sort is
stable, so any adjacent-or-not pair that the accumulated list produces in
a given order with non-increasing scores stays in that order; ties are not
re-ordered by ascending document id. -/
theorem rrf_ties_keep_first_appearance_order (k : ℚ)
    (bm25Results vectorResults : List R) (a b : R)
    (hsub : List.Sublist [a, b]
      (addRanked k 1 (addRanked k 1 [] bm25Results) vectorResults))
    (hle : b.score ≤ a.score) :
    List.Sublist [a, b] (reciprocal_rank_fusion k bm25Results vectorResults) :=
  pair_sublist_sortByScoreDesc R.score hle hsub

/-- Witness for C5's amended theorem on the counterexample's input. -/
theorem rrf_ties_keep_first_appearance_order_witness :
    List.Sublist [R.mk 5 "a" (1 / (60 + ((1 : Nat) : ℚ))),
        R.mk 3 "b" (1 / (60 + ((1 : Nat) : ℚ)))]
      (reciprocal_rank_fusion 60 [R.mk 5 "a" 1] [R.mk 3 "b" 1]) :=
  rrf_ties_keep_first_appearance_order 60 [R.mk 5 "a" 1] [R.mk 3 "b" 1]
    (R.mk 5 "a" (1 / (60 + ((1 : Nat) : ℚ))))
    (R.mk 3 "b" (1 / (60 + ((1 : Nat) : ℚ))))
    (by rw [show addRanked 60 1 (addRanked 60 1 [] [R.mk 5 "a" 1]) [R.mk 3 "b" 1]
        = [R.mk 5 "a" (1 / (60 + ((1 : Nat) : ℚ))),
            R.mk 3 "b" (1 / (60 + ((1 : Nat) : ℚ)))] from rfl])
    le_rfl

namespace KBDetective

/-! Lemmas about the Python-dict cache model. -/

theorem cacheInsert_cons_ne (e : CacheKey × List SimCase × Nat) (es : Cache)
    (k : CacheKey) (v : List SimCase × Nat) (he : ¬ e.1 = k) :
    cacheInsert (e :: es) k v = e :: cacheInsert es k v := by
  by_cases hes : es.any (fun x => x.1 = k) <;>
    simp [cacheInsert, List.any_cons, he, hes]

theorem cacheLookup_cacheInsert (k : CacheKey) (v : List SimCase × Nat) :
    ∀ c : Cache, cacheLookup (cacheInsert c k v) k = some v := by
  intro c
  induction c with
  | nil => simp [cacheInsert, cacheLookup]
  | cons e es ih =>
    by_cases he : e.1 = k
    · rw [show cacheInsert (e :: es) k v
        = (k, v) :: es.map (fun x => if x.1 = k then (k, v) else x) from by
          simp [cacheInsert, List.any_cons, he]]
      simp [cacheLookup, List.find?_cons]
    · rw [cacheInsert_cons_ne e es k v he]
      rw [show cacheLookup (e :: cacheInsert es k v) k
        = cacheLookup (cacheInsert es k v) k from by
          simp [cacheLookup, List.find?_cons, he]]
      exact ih

theorem mem_cacheKeys_cacheInsert (c : Cache) (k k' : CacheKey)
    (v : List SimCase × Nat) :
    k' ∈ cacheKeys (cacheInsert c k v) ↔ k' ∈ cacheKeys c ∨ k' = k := by
  cases h : c.any (fun e => e.1 = k) with
  | true =>
    have hkeys : cacheKeys (cacheInsert c k v) = cacheKeys c := by
      simp only [cacheInsert, h, if_true, cacheKeys, List.map_map]
      apply List.map_congr_left
      intro e _
      by_cases he : e.1 = k <;> simp [he]
    rw [hkeys]
    constructor
    · exact Or.inl
    · rintro (hk | hk)
      · exact hk
      · subst hk
        obtain ⟨e, he, hp⟩ := List.any_eq_true.mp h
        exact List.mem_map.mpr ⟨e, he, by simpa using hp⟩
  | false =>
    have hkeys : cacheKeys (cacheInsert c k v) = cacheKeys c ++ [k] := by
      simp [cacheInsert, h, cacheKeys]
    rw [hkeys]
    simp

theorem length_cacheInsert_le (c : Cache) (k : CacheKey)
    (v : List SimCase × Nat) :
    (cacheInsert c k v).length ≤ c.length + 1 := by
  by_cases h : c.any (fun e => e.1 = k) <;> simp [cacheInsert, h]

/-- C6: a cache hit younger than the 300-second TTL returns the cached
list verbatim without entering the database pipeline; a hit at least
300 seconds old ignores the cached value, re-runs the pipeline, and stores
the fresh sorted top-5 result under the same key with the current
timestamp. -/
theorem cache_ttl_read_through
    (pipe : ErrorDict → Except String (List SimCase)) (st : KBState)
    (err : ErrorDict) (now : Nat) (res : List SimCase) (ts : Nat)
    (hdb : st.dbExists = true)
    (hlook : cacheLookup st.cache (cacheKey err) = some (res, ts)) :
    (now - ts < cacheTTL →
      search_similar_errors pipe st err now = (res, st, false)) ∧
    (cacheTTL ≤ now - ts → ∀ fresh, pipe err = .ok fresh →
      search_similar_errors pipe st err now
        = ((SynthesisRAG.sortByScoreDesc SimCase.similarity fresh).take 5,
            ⟨cacheInsert
              (if cacheMaxSize ≤ st.cache.length then st.cache.drop 1 else st.cache)
              (cacheKey err)
              ((SynthesisRAG.sortByScoreDesc SimCase.similarity fresh).take 5, now),
            true⟩, true) ∧
      cacheLookup (search_similar_errors pipe st err now).2.1.cache (cacheKey err)
        = some ((SynthesisRAG.sortByScoreDesc SimCase.similarity fresh).take 5, now)) := by
  constructor
  · intro hfresh
    simp [search_similar_errors, hdb, hlook, hfresh]
  · intro hstale fresh hpipe
    have hlt : ¬ (now - ts < cacheTTL) := by omega
    have hres : search_similar_errors pipe st err now
        = ((SynthesisRAG.sortByScoreDesc SimCase.similarity fresh).take 5,
            ⟨cacheInsert
              (if cacheMaxSize ≤ st.cache.length then st.cache.drop 1 else st.cache)
              (cacheKey err)
              ((SynthesisRAG.sortByScoreDesc SimCase.similarity fresh).take 5, now),
            true⟩, true) := by
      simp [search_similar_errors, hdb, hlook, hlt, hpipe]
    refine ⟨hres, ?_⟩
    rw [hres]
    exact cacheLookup_cacheInsert _ _ _

/-- Witness for C6: a fresh hit (10 s old) returns the cached list and a
stale hit (400 s old) re-runs the pipeline and restores the key. -/
theorem cache_ttl_read_through_witness :
    (search_similar_errors (fun _ => Except.ok ([] : List SimCase))
        ⟨[(("NullRef", ""), [], 0)], true⟩
        ⟨some "NullRef", none, none, none⟩ 10
      = ([], ⟨[(("NullRef", ""), [], 0)], true⟩, false)) ∧
    (search_similar_errors (fun _ => Except.ok ([] : List SimCase))
        ⟨[(("NullRef", ""), [], 0)], true⟩
        ⟨some "NullRef", none, none, none⟩ 400
      = ((SynthesisRAG.sortByScoreDesc SimCase.similarity []).take 5,
          ⟨cacheInsert
            (if cacheMaxSize ≤ ([(("NullRef", ""), [], 0)] : Cache).length
              then ([(("NullRef", ""), [], 0)] : Cache).drop 1
              else [(("NullRef", ""), [], 0)])
            (cacheKey ⟨some "NullRef", none, none, none⟩)
            ((SynthesisRAG.sortByScoreDesc SimCase.similarity []).take 5, 400),
          true⟩, true) ∧
      cacheLookup (search_similar_errors (fun _ => Except.ok ([] : List SimCase))
          ⟨[(("NullRef", ""), [], 0)], true⟩
          ⟨some "NullRef", none, none, none⟩ 400).2.1.cache
        (cacheKey ⟨some "NullRef", none, none, none⟩)
      = some ((SynthesisRAG.sortByScoreDesc SimCase.similarity []).take 5, 400)) :=
  ⟨(cache_ttl_read_through (fun _ => Except.ok ([] : List SimCase))
      ⟨[(("NullRef", ""), [], 0)], true⟩
      ⟨some "NullRef", none, none, none⟩ 10 [] 0 rfl (by decide)).1
    (by decide),
    (cache_ttl_read_through (fun _ => Except.ok ([] : List SimCase))
      ⟨[(("NullRef", ""), [], 0)], true⟩
      ⟨some "NullRef", none, none, none⟩ 400 [] 0 rfl (by decide)).2
    (by decide) [] rfl⟩

/-- C9: the result cache is bounded by `cacheMaxSize = 100` entries and
the bound is preserved by every call; an entry only ever disappears when
the cache was at capacity and it was the oldest-inserted (first) key —
FIFO eviction — so TTL staleness alone never removes an entry; and a
store into a full cache under a new key evicts exactly that oldest key. -/
theorem cache_bounded_fifo
    (pipe : ErrorDict → Except String (List SimCase)) (st : KBState)
    (err : ErrorDict) (now : Nat)
    (hsize : st.cache.length ≤ cacheMaxSize)
    (hnd : (cacheKeys st.cache).Nodup) :
    ((search_similar_errors pipe st err now).2.1.cache.length ≤ cacheMaxSize) ∧
    (∀ k' ∈ cacheKeys st.cache,
      k' ∉ cacheKeys (search_similar_errors pipe st err now).2.1.cache →
      cacheMaxSize ≤ st.cache.length ∧ (cacheKeys st.cache).head? = some k') ∧
    (∀ k₀, st.cache.length = cacheMaxSize →
      (cacheKeys st.cache).head? = some k₀ → k₀ ≠ cacheKey err →
      cacheLookup st.cache (cacheKey err) = none → st.dbExists = true →
      ∀ fresh, pipe err = .ok fresh →
      k₀ ∉ cacheKeys (search_similar_errors pipe st err now).2.1.cache) := by
  have hstore : ∀ v : List SimCase × Nat,
      ((cacheInsert
          (if cacheMaxSize ≤ st.cache.length then st.cache.drop 1 else st.cache)
          (cacheKey err) v).length ≤ cacheMaxSize) ∧
      (∀ k' ∈ cacheKeys st.cache,
        k' ∉ cacheKeys (cacheInsert
          (if cacheMaxSize ≤ st.cache.length then st.cache.drop 1 else st.cache)
          (cacheKey err) v) →
        cacheMaxSize ≤ st.cache.length ∧ (cacheKeys st.cache).head? = some k') := by
    intro v
    by_cases hcap : cacheMaxSize ≤ st.cache.length
    · have hlen : st.cache.length = cacheMaxSize := le_antisymm hsize hcap
      constructor
      · calc (cacheInsert (if cacheMaxSize ≤ st.cache.length then st.cache.drop 1
              else st.cache) (cacheKey err) v).length
            ≤ (if cacheMaxSize ≤ st.cache.length then st.cache.drop 1
              else st.cache).length + 1 := length_cacheInsert_le _ _ _
          _ ≤ cacheMaxSize := by
              rw [if_pos hcap, List.length_drop, hlen]
              simp [cacheMaxSize]
      · intro k' hk' hnot
        rw [if_pos hcap] at hnot
        rw [mem_cacheKeys_cacheInsert] at hnot
        push_neg at hnot
        refine ⟨hcap, ?_⟩
        cases hc : st.cache with
        | nil => rw [hc] at hlen; simp [cacheMaxSize] at hlen
        | cons e rest =>
          have hck : cacheKeys (e :: rest) = e.1 :: cacheKeys rest := rfl
          rw [hc] at hk' hnot
          rw [hck] at hk'
          rcases List.mem_cons.mp hk' with hhead | htail
          · rw [hck]
            simp [hhead]
          · exfalso
            exact hnot.1 htail
    · constructor
      · calc (cacheInsert (if cacheMaxSize ≤ st.cache.length then st.cache.drop 1
              else st.cache) (cacheKey err) v).length
            ≤ (if cacheMaxSize ≤ st.cache.length then st.cache.drop 1
              else st.cache).length + 1 := length_cacheInsert_le _ _ _
          _ ≤ cacheMaxSize := by
              rw [if_neg hcap]
              omega
      · intro k' hk' hnot
        exfalso
        rw [if_neg hcap, mem_cacheKeys_cacheInsert] at hnot
        push_neg at hnot
        exact hnot.1 hk'
  cases hdb : st.dbExists with
  | false =>
    have hval : search_similar_errors pipe st err now = ([], st, false) := by
      simp [search_similar_errors, hdb]
    rw [hval]
    refine ⟨hsize, ?_, ?_⟩
    · intro k' hk' hnot
      exact absurd hk' hnot
    · intro k₀ _ _ _ _ hdb' _ _
      exact absurd hdb' (by simp [hdb])
  | true =>
    cases hl : cacheLookup st.cache (cacheKey err) with
    | some p =>
      by_cases hfr : now - p.2 < cacheTTL
      · have hval : search_similar_errors pipe st err now = (p.1, st, false) := by
          simp [search_similar_errors, hdb, hl, hfr]
        rw [hval]
        refine ⟨hsize, ?_, ?_⟩
        · intro k' hk' hnot
          exact absurd hk' hnot
        · intro k₀ _ _ _ hnone _ _ _
          exact absurd hnone (by simp)
      · cases hp : pipe err with
        | error e =>
          have hval : search_similar_errors pipe st err now = ([], st, true) := by
            simp [search_similar_errors, hdb, hl, hfr, hp]
          rw [hval]
          refine ⟨hsize, ?_, ?_⟩
          · intro k' hk' hnot
            exact absurd hk' hnot
          · intro k₀ _ _ _ hnone _ _ _
            exact absurd hnone (by simp)
        | ok fresh =>
          have hval : (search_similar_errors pipe st err now).2.1.cache
              = cacheInsert
                (if cacheMaxSize ≤ st.cache.length then st.cache.drop 1
                  else st.cache)
                (cacheKey err)
                ((SynthesisRAG.sortByScoreDesc SimCase.similarity fresh).take 5,
                  now) := by
            simp [search_similar_errors, hdb, hl, hfr, hp]
          rw [hval]
          refine ⟨(hstore _).1, (hstore _).2, ?_⟩
          intro k₀ hlen hhead hne hnone _ _ _
          exact absurd hnone (by simp)
    | none =>
      cases hp : pipe err with
      | error e =>
        have hval : search_similar_errors pipe st err now = ([], st, true) := by
          simp [search_similar_errors, hdb, hl, hp]
        rw [hval]
        refine ⟨hsize, ?_, ?_⟩
        · intro k' hk' hnot
          exact absurd hk' hnot
        · intro k₀ _ _ _ _ _ fresh hfr
          exact absurd hfr (by simp)
      | ok fresh =>
        have hval : (search_similar_errors pipe st err now).2.1.cache
            = cacheInsert
              (if cacheMaxSize ≤ st.cache.length then st.cache.drop 1
                else st.cache)
              (cacheKey err)
              ((SynthesisRAG.sortByScoreDesc SimCase.similarity fresh).take 5,
                now) := by
          simp [search_similar_errors, hdb, hl, hp]
        rw [hval]
        refine ⟨(hstore _).1, (hstore _).2, ?_⟩
        intro k₀ hlen hhead hne hnone _ fresh' hfr
        have hcap : cacheMaxSize ≤ st.cache.length := le_of_eq hlen.symm
        rw [if_pos hcap]
        rw [mem_cacheKeys_cacheInsert]
        push_neg
        refine ⟨?_, hne⟩
        cases hc : st.cache with
        | nil => rw [hc] at hlen; simp [cacheMaxSize] at hlen
        | cons e rest =>
          have hck : cacheKeys (e :: rest) = e.1 :: cacheKeys rest := rfl
          rw [hc] at hhead hnd
          rw [hck] at hhead hnd
          have hk₀ : k₀ = e.1 := by
            rw [List.head?_cons] at hhead
            exact (Option.some.inj hhead).symm
          subst hk₀
          intro hmem
          rw [List.nodup_cons] at hnd
          exact hnd.1 hmem

/-- Witness for C9: a one-entry cache stays within the 100-entry bound
across a store. -/
theorem cache_bounded_fifo_witness :
    (([(("NullRef", ""), [], 0)] : Cache).length ≤ cacheMaxSize ∧
      (cacheKeys [(("NullRef", ""), [], 0)]).Nodup) ∧
    (search_similar_errors (fun _ => Except.ok ([] : List SimCase))
        ⟨[(("NullRef", ""), [], 0)], true⟩
        ⟨some "NullRef", none, none, none⟩ 400).2.1.cache.length ≤ cacheMaxSize :=
  ⟨⟨by decide, by decide⟩,
    (cache_bounded_fifo (fun _ => Except.ok ([] : List SimCase))
      ⟨[(("NullRef", ""), [], 0)], true⟩
      ⟨some "NullRef", none, none, none⟩ 400 (by decide) (by decide)).1⟩

end KBDetective

end SynthesisRAG
